import Mathlib

/-!
Verification of the `kobuki` differential-drive module
(`src/driver/diff_drive.cpp`).

Shallow embedding conventions:
* C++ `double`/`float` values are modelled as rationals (`ℚ`); the float
  literal `0.00071674029f` is modelled by the corresponding decimal rational.
* 16-bit unsigned hardware words (encoder ticks, timestamps) are modelled as
  `ℕ`; the C idiom `(double)(short)((curr - prev) & 0xffff)` is modelled by
  `wrap16`, working in `ℤ` with explicit `% 65536`.
* The mutable `DiffDrive` object becomes a state record; each member function
  maps the pre-state (plus its arguments) to a post-state and, for `update`,
  a result record holding the out-parameters and the intermediate tick deltas.
* Mutex lock/unlock pairs have no observable effect on the sequential
  semantics and are not modelled.
-/

namespace Kobuki

/-- A pose (or pose rate) triple: x, y, heading. -/
abbrev Pose := ℚ × ℚ × ℚ

/-- State of a `DiffDrive` object.  The fields mirror the data members used by
`diff_drive.cpp`; `init_l`/`init_r` model the function-local `static bool`
flags of `DiffDrive::update` (per-instance, as the spec directs). -/
structure DiffDrive where
  init_l : Bool
  init_r : Bool
  last_velocity_left : ℚ
  last_velocity_right : ℚ
  last_tick_left : ℕ
  last_tick_right : ℕ
  last_rad_left : ℚ
  last_rad_right : ℚ
  last_timestamp : ℕ
  last_diff_time : ℚ
  point_velocity : ℚ × ℚ
  radius : ℚ
  speed : ℚ
  bias : ℚ
  wheel_radius : ℚ
  tick_to_rad : ℚ
deriving Repr, DecidableEq

/-- The constructor `DiffDrive::DiffDrive()`.  The members listed in the
initializer list of the source get their listed values.  Modelled from the
spec: the declarations and in-class initializers of `last_timestamp` and
`last_diff_time` live in the header `diff_drive.hpp`, which is not part of the
sources; following the spec (the time baseline is "created at construction",
and a division by a zero elapsed time is possible "on the first sample") both
start at zero. -/
def DiffDrive.init : DiffDrive where
  init_l := false
  init_r := false
  last_velocity_left := 0
  last_velocity_right := 0
  last_tick_left := 0
  last_tick_right := 0
  last_rad_left := 0
  last_rad_right := 0
  last_timestamp := 0
  last_diff_time := 0
  point_velocity := (0, 0)
  radius := 0
  speed := 0
  bias := 485/1000
  wheel_radius := 205/1000
  tick_to_rad := 71674029/100000000000

/-- The C idiom `(double)(short)((curr - prev) & 0xffff)`: the `int`
difference is reduced modulo 2^16 (`& 0xffff`) and the low 16 bits are
reinterpreted as a signed 16-bit value. -/
def wrap16 (curr prev : ℕ) : ℤ :=
  let d : ℤ := ((curr : ℤ) - (prev : ℤ)) % 65536
  if 32768 ≤ d then d - 65536 else d

/-- Modelled from the spec: the external two-wheel-differential kinematics
primitive `diff_drive_kinematics.poseUpdateFromWheelDifferential`
(ecl library, an external collaborator with contract
`pose_update(left_radians, right_radians) -> (dx, dy, dtheta)`), the standard
differential-drive forward kinematics over one sampling interval. -/
def poseUpdateFromWheelDifferential (wheel_radius bias dleft dright : ℚ) : Pose :=
  (wheel_radius * (dleft + dright) / 2, 0, wheel_radius * (dright - dleft) / bias)

/-- Result of one call to `DiffDrive::update`: the post-state, the two
out-parameters, and the intermediate per-wheel tick deltas (integer-valued
locals of the source, exposed for observability). -/
structure UpdateResult where
  state : DiffDrive
  left_diff_ticks : ℤ
  right_diff_ticks : ℤ
  pose_update : Pose
  pose_update_rates : Pose
deriving Repr, DecidableEq

/-- The divisor used by the pose-rate division at the end of
`DiffDrive::update`: the freshly recomputed `last_diff_time` when the
timestamp advanced, the stale stored one otherwise. -/
def DiffDrive.rateDivisor (s : DiffDrive) (time_stamp : ℕ) : ℚ :=
  if time_stamp ≠ s.last_timestamp then ((wrap16 time_stamp s.last_timestamp : ℤ) : ℚ) / 1000
  else s.last_diff_time

/-- `DiffDrive::update` (diff_drive.cpp lines 51-105).  On an unseeded wheel
the baseline is first set to the current tick; each wheel delta is the signed
16-bit wraparound difference from the baseline; baselines are replaced by the
current ticks; accumulated radians grow by `tick_to_rad * delta`; the pose
delta comes from the kinematics primitive; elapsed time and wheel velocities
are recomputed only when the timestamp changed; the pose rates divide the
pose delta by `last_diff_time` unconditionally. -/
def DiffDrive.update (s : DiffDrive) (time_stamp left_encoder right_encoder : ℕ) :
    UpdateResult :=
  let base_l : ℕ := if s.init_l then s.last_tick_left else left_encoder
  let left_diff_ticks : ℤ := wrap16 left_encoder base_l
  let last_rad_left : ℚ := s.last_rad_left + s.tick_to_rad * (left_diff_ticks : ℚ)
  let base_r : ℕ := if s.init_r then s.last_tick_right else right_encoder
  let right_diff_ticks : ℤ := wrap16 right_encoder base_r
  let last_rad_right : ℚ := s.last_rad_right + s.tick_to_rad * (right_diff_ticks : ℚ)
  let pose_update : Pose := poseUpdateFromWheelDifferential s.wheel_radius s.bias
    (s.tick_to_rad * (left_diff_ticks : ℚ)) (s.tick_to_rad * (right_diff_ticks : ℚ))
  let last_diff_time : ℚ :=
    if time_stamp ≠ s.last_timestamp then ((wrap16 time_stamp s.last_timestamp : ℤ) : ℚ) / 1000
    else s.last_diff_time
  let last_timestamp : ℕ :=
    if time_stamp ≠ s.last_timestamp then time_stamp else s.last_timestamp
  let last_velocity_left : ℚ :=
    if time_stamp ≠ s.last_timestamp then s.tick_to_rad * (left_diff_ticks : ℚ) / last_diff_time
    else s.last_velocity_left
  let last_velocity_right : ℚ :=
    if time_stamp ≠ s.last_timestamp then s.tick_to_rad * (right_diff_ticks : ℚ) / last_diff_time
    else s.last_velocity_right
  let pose_update_rates : Pose :=
    (pose_update.1 / last_diff_time, pose_update.2.1 / last_diff_time,
      pose_update.2.2 / last_diff_time)
  { state :=
      { s with
        init_l := true
        init_r := true
        last_tick_left := left_encoder
        last_tick_right := right_encoder
        last_rad_left := last_rad_left
        last_rad_right := last_rad_right
        last_timestamp := last_timestamp
        last_diff_time := last_diff_time
        last_velocity_left := last_velocity_left
        last_velocity_right := last_velocity_right }
    left_diff_ticks := left_diff_ticks
    right_diff_ticks := right_diff_ticks
    pose_update := pose_update
    pose_update_rates := pose_update_rates }

/-- `DiffDrive::reset` (lines 107-114): zeroes accumulated radians and wheel
velocities, touches nothing else. -/
def DiffDrive.reset (s : DiffDrive) : DiffDrive :=
  { s with
    last_rad_left := 0
    last_rad_right := 0
    last_velocity_left := 0
    last_velocity_right := 0 }

/-- `DiffDrive::getWheelJointStates` (lines 116-124): returns
(left angle, left rate, right angle, right rate). -/
def DiffDrive.getWheelJointStates (s : DiffDrive) : ℚ × ℚ × ℚ × ℚ :=
  (s.last_rad_left, s.last_velocity_left, s.last_rad_right, s.last_velocity_right)

/-- `DiffDrive::setVelocityCommands` (lines 127-134): stores the raw
(vx, wz) pair. -/
def DiffDrive.setVelocityCommands (s : DiffDrive) (vx wz : ℚ) : DiffDrive :=
  { s with point_velocity := (vx, wz) }

/-- The dead-zone rewrite at the top of `DiffDrive::velocityCommands`
(lines 149-151): a linear speed of magnitude below 0.1 m/s is forced to 0. -/
def deadzone (vx : ℚ) : ℚ :=
  if |vx| < 1/10 then 0 else vx

/-- `DiffDrive::velocityCommands(vx, wz)` (lines 137-196): the branch policy
translating (vx, wz) into the stored (speed, radius) firmware command. -/
def DiffDrive.velocityCommandsVW (s : DiffDrive) (vx wz : ℚ) : DiffDrive :=
  let epsilon : ℚ := 1/10000
  let vx' : ℚ := deadzone vx
  if |wz| < epsilon then
    { s with radius := 0, speed := 1000 * vx' }
  else
    let radius : ℚ := vx' * 1000 / wz
    if |vx'| < epsilon ∨ |radius| ≤ 1 then
      let speed0 : ℚ := 1000 * s.bias * wz / 2
      let speed : ℚ :=
        if |speed0| < 50 then (if 0 < speed0 then 50 else -50) else speed0
      { s with radius := 1, speed := speed }
    else
      let speed : ℚ :=
        if 0 < radius then (radius + 1000 * s.bias / 2) * wz
        else (radius - 1000 * s.bias / 2) * wz
      { s with radius := radius, speed := speed }

/-- `DiffDrive::velocityCommands(short, short)` (lines 198-204): raw
passthrough of a precomputed (speed, radius) pair. -/
def DiffDrive.velocityCommandsRaw (s : DiffDrive) (cmd_speed cmd_radius : ℤ) : DiffDrive :=
  { s with speed := (cmd_speed : ℚ), radius := (cmd_radius : ℚ) }

/-- The C++ cast `(short)value` applied to an in-range double: truncation
toward zero. -/
def truncToInt (v : ℚ) : ℤ :=
  if 0 ≤ v then ⌊v⌋ else ⌈v⌉

/-- `DiffDrive::bound` (lines 219-223): saturate to [SHRT_MIN, SHRT_MAX],
then truncate to a 16-bit signed integer. -/
def bound (v : ℚ) : ℤ :=
  if 32767 < v then 32767
  else if v < -32768 then -32768
  else truncToInt v

/-- `DiffDrive::velocityCommands()` (lines 206-213): the bounded firmware
command (speed, radius) as a pair of 16-bit signed integers. -/
def DiffDrive.velocityCommandsGet (s : DiffDrive) : ℤ × ℤ :=
  (bound s.speed, bound s.radius)

/-- The spec formula for the wrapped delta, written exactly as in the spec:
`((curr - prev + 32768) mod 65536) - 32768`. -/
def specDelta (curr prev : ℕ) : ℤ :=
  ((curr : ℤ) - (prev : ℤ) + 32768) % 65536 - 32768

theorem wrap16_eq_specDelta (curr prev : ℕ) : wrap16 curr prev = specDelta curr prev := by
  unfold wrap16 specDelta
  dsimp only
  split <;> omega

theorem wrap16_self (n : ℕ) : wrap16 n n = 0 := by
  unfold wrap16
  dsimp only
  split <;> omega

/-- C1: For every pair of 16-bit unsigned values (prev, curr), the tick and
timestamp delta computed by update equals
((curr - prev + 32768) mod 65536) - 32768, i.e. the signed 16-bit wraparound
difference, independently for the left wheel, the right wheel, and the
timestamp (whose delta, divided by 1000, becomes the new elapsed time
whenever the timestamp changed). -/
theorem update_computes_wraparound_deltas (s : DiffDrive)
    (time_stamp left_encoder right_encoder : ℕ)
    (hl : s.init_l = true) (hr : s.init_r = true) :
    (s.update time_stamp left_encoder right_encoder).left_diff_ticks
      = specDelta left_encoder s.last_tick_left ∧
    (s.update time_stamp left_encoder right_encoder).right_diff_ticks
      = specDelta right_encoder s.last_tick_right ∧
    (time_stamp ≠ s.last_timestamp →
      (s.update time_stamp left_encoder right_encoder).state.last_diff_time
        = ((specDelta time_stamp s.last_timestamp : ℤ) : ℚ) / 1000) := by
  refine ⟨?_, ?_, fun h => ?_⟩ <;>
    simp [DiffDrive.update, hl, hr, wrap16_eq_specDelta, *]

/-- A seeded tracker whose counters sit just below their wrap points; used as
the concrete input of the C1 witness. -/
def wrapState : DiffDrive := { DiffDrive.init with
  init_l := true
  init_r := true
  last_tick_left := 65500
  last_tick_right := 10
  last_timestamp := 65000 }

/-- Witness for C1 at a concrete wrapped input: previous ticks
(65500, 10), timestamp baseline 65000; current ticks (10, 65530) and
timestamp 500, so the left counter and the timestamp wrapped forward and the
right counter wrapped backward. -/
theorem update_computes_wraparound_deltas_witness :
    ((wrapState.update 500 10 65530).left_diff_ticks = specDelta 10 65500 ∧
      specDelta 10 65500 = 46) ∧
    ((wrapState.update 500 10 65530).right_diff_ticks = specDelta 65530 10 ∧
      specDelta 65530 10 = -16) ∧
    ((wrapState.update 500 10 65530).state.last_diff_time
        = ((specDelta 500 65000 : ℤ) : ℚ) / 1000 ∧
      specDelta 500 65000 = 1036) := by
  have h := update_computes_wraparound_deltas wrapState 500 10 65530 rfl rfl
  exact ⟨⟨h.1, by decide⟩, ⟨h.2.1, by decide⟩, ⟨h.2.2 (by decide), by decide⟩⟩

/-- C2: For every freshly constructed DiffDrive instance and every raw input
triple, the first call to update records the supplied ticks as baselines and
yields a zero per-wheel tick delta and hence a zero pose delta, regardless of
the raw tick values supplied. -/
theorem first_update_zero_delta (time_stamp left_encoder right_encoder : ℕ) :
    (DiffDrive.init.update time_stamp left_encoder right_encoder).left_diff_ticks = 0 ∧
    (DiffDrive.init.update time_stamp left_encoder right_encoder).right_diff_ticks = 0 ∧
    (DiffDrive.init.update time_stamp left_encoder right_encoder).pose_update = (0, 0, 0) ∧
    (DiffDrive.init.update time_stamp left_encoder right_encoder).state.last_tick_left
      = left_encoder ∧
    (DiffDrive.init.update time_stamp left_encoder right_encoder).state.last_tick_right
      = right_encoder := by
  simp [DiffDrive.update, DiffDrive.init, wrap16_self, poseUpdateFromWheelDifferential]

/-- The state reached from a fresh instance by a first update whose timestamp
0 coincides with the constructed timestamp baseline: its elapsed time is
still zero. -/
def divZeroState : DiffDrive := (DiffDrive.init.update 0 0 0).state

/-- C3 counterexample: the pose-rate division in update is NOT guarded.
Starting from a fresh instance, a first call with timestamp 0 leaves the
elapsed time at zero; a second call with the same timestamp and moved wheels
then produces a nonzero pose delta whose element-wise division by the zero
elapsed time is still performed (doubles would silently yield non-finite
values; in the rational model division by zero collapses to 0, so genuinely
nonzero motion is reported with an all-zero rate). -/
theorem update_rate_division_unguarded_cex :
    divZeroState.rateDivisor 0 = 0 ∧
    (divZeroState.update 0 100 200).pose_update ≠ (0, 0, 0) ∧
    (divZeroState.update 0 100 200).pose_update_rates = (0, 0, 0) := by
  have hts : divZeroState.last_timestamp = 0 := rfl
  have hdt : divZeroState.last_diff_time = 0 := rfl
  have hil : divZeroState.init_l = true := rfl
  have hir : divZeroState.init_r = true := rfl
  have htl : divZeroState.last_tick_left = 0 := rfl
  have htr : divZeroState.last_tick_right = 0 := rfl
  have hb : divZeroState.bias = 485/1000 := rfl
  have hw : divZeroState.wheel_radius = 205/1000 := rfl
  have hk : divZeroState.tick_to_rad = 71674029/100000000000 := rfl
  have h100 : wrap16 100 0 = 100 := by decide
  have h200 : wrap16 200 0 = 200 := by decide
  refine ⟨rfl, ?_, ?_⟩
  · simp only [DiffDrive.update, poseUpdateFromWheelDifferential,
      hil, hir, htl, htr, hb, hw, hk, if_true, h100, h200]
    intro hcontra
    have h1 := congrArg Prod.fst hcontra
    norm_num at h1
  · simp only [DiffDrive.update, hts, hdt, ne_eq, not_true_eq_false, if_false,
      ite_self, reduceIte]
    simp [div_zero]

/-- C3 amended: update always computes the pose rates as the element-wise
division of the pose delta by the (possibly zero) elapsed-time divisor; no
guard exists for a zero elapsed time. -/
theorem update_rate_division_unconditional (s : DiffDrive)
    (time_stamp left_encoder right_encoder : ℕ) :
    (s.update time_stamp left_encoder right_encoder).pose_update_rates =
      ((s.update time_stamp left_encoder right_encoder).pose_update.1
          / s.rateDivisor time_stamp,
        (s.update time_stamp left_encoder right_encoder).pose_update.2.1
          / s.rateDivisor time_stamp,
        (s.update time_stamp left_encoder right_encoder).pose_update.2.2
          / s.rateDivisor time_stamp) := by
  by_cases h : time_stamp = s.last_timestamp <;>
    simp [DiffDrive.update, DiffDrive.rateDivisor, h]

/-- C8: reset zeroes the accumulated wheel angles and the per-wheel
velocities while leaving the tick baselines and the timestamp baseline (and
the seeding flags) unchanged, so a subsequent update computes exactly the
same tick and time deltas as it would have before the reset. -/
theorem reset_preserves_baselines (s : DiffDrive) (ts l r : ℕ) :
    s.reset.last_rad_left = 0 ∧
    s.reset.last_rad_right = 0 ∧
    s.reset.last_velocity_left = 0 ∧
    s.reset.last_velocity_right = 0 ∧
    s.reset.last_tick_left = s.last_tick_left ∧
    s.reset.last_tick_right = s.last_tick_right ∧
    s.reset.last_timestamp = s.last_timestamp ∧
    (s.reset.update ts l r).left_diff_ticks = (s.update ts l r).left_diff_ticks ∧
    (s.reset.update ts l r).right_diff_ticks = (s.update ts l r).right_diff_ticks ∧
    (s.reset.update ts l r).state.last_diff_time = (s.update ts l r).state.last_diff_time := by
  simp [DiffDrive.reset, DiffDrive.update]

/-- C9: when the incoming timestamp equals the stored previous timestamp,
update does not recompute the elapsed time or the per-wheel velocities (so
getWheelJointStates still reads the old rates), while the pose delta is
still produced from the tick deltas of that very call. -/
theorem stale_timestamp_keeps_rates (s : DiffDrive) (ts l r : ℕ)
    (h : ts = s.last_timestamp) :
    (s.update ts l r).state.last_diff_time = s.last_diff_time ∧
    (s.update ts l r).state.last_velocity_left = s.last_velocity_left ∧
    (s.update ts l r).state.last_velocity_right = s.last_velocity_right ∧
    ((s.update ts l r).state.getWheelJointStates).2.1 = s.last_velocity_left ∧
    ((s.update ts l r).state.getWheelJointStates).2.2.2 = s.last_velocity_right ∧
    (s.update ts l r).pose_update = poseUpdateFromWheelDifferential s.wheel_radius s.bias
      (s.tick_to_rad * ((wrap16 l (if s.init_l then s.last_tick_left else l) : ℤ) : ℚ))
      (s.tick_to_rad * ((wrap16 r (if s.init_r then s.last_tick_right else r) : ℤ) : ℚ)) := by
  simp [DiffDrive.update, DiffDrive.getWheelJointStates, h]

/-- A seeded tracker with timestamp baseline 7 and nonzero stored rates;
used as the concrete input of the C9 witness. -/
def staleState : DiffDrive := { DiffDrive.init with
  init_l := true
  init_r := true
  last_tick_left := 3
  last_tick_right := 4
  last_timestamp := 7
  last_diff_time := 1/100
  last_velocity_left := 5
  last_velocity_right := 6 }

/-- Witness for C9: a tracker with timestamp baseline 7 and stored rates
(5, 6) is updated with the same timestamp 7 and moved wheels; the stored
rates and elapsed time survive untouched. -/
theorem stale_timestamp_keeps_rates_witness :
    (staleState.update 7 10 20).state.last_velocity_left = 5 ∧
    (staleState.update 7 10 20).state.last_velocity_right = 6 ∧
    (staleState.update 7 10 20).state.last_diff_time = 1/100 := by
  have h := stale_timestamp_keeps_rates staleState 7 10 20 rfl
  exact ⟨h.2.1.trans rfl, h.2.2.1.trans rfl, h.1.trans rfl⟩

/-- C5: whenever |wz| < 1e-4 the translator takes the straight-line branch:
radius becomes 0 and speed becomes 1000 times the dead-zone-rewritten vx. -/
theorem straight_line_branch (s : DiffDrive) (vx wz : ℚ)
    (hwz : |wz| < 1/10000) :
    (s.velocityCommandsVW vx wz).radius = 0 ∧
    (s.velocityCommandsVW vx wz).speed = 1000 * deadzone vx := by
  rw [DiffDrive.velocityCommandsVW]
  dsimp only
  rw [if_pos hwz]
  exact ⟨rfl, rfl⟩

/-- Witness for C5 at the spec example vx = 1.0, wz = 0.00005: the command
becomes radius 0, speed 1000. -/
theorem straight_line_branch_witness :
    (DiffDrive.init.velocityCommandsVW 1 (5/100000)).radius = 0 ∧
    (DiffDrive.init.velocityCommandsVW 1 (5/100000)).speed = 1000 := by
  have h := straight_line_branch DiffDrive.init 1 (5/100000) (by rw [abs_of_pos] <;> norm_num)
  refine ⟨h.1, h.2.trans ?_⟩
  rw [deadzone, if_neg (by rw [abs_of_pos] <;> norm_num)]
  norm_num

/-- C4: whenever |wz| ≥ 1e-4 and, after the dead-zone rewrite, |vx| < 1e-4
or |1000·vx/wz| ≤ 1, the translator takes the pivot branch: speed becomes
1000·bias·wz/2, its magnitude clamped up to 50 preserving sign whenever it is
below 50, and radius becomes the sentinel 1. -/
theorem pivot_branch (s : DiffDrive) (vx wz : ℚ)
    (hwz : 1/10000 ≤ |wz|)
    (hbr : |deadzone vx| < 1/10000 ∨ |1000 * deadzone vx / wz| ≤ 1) :
    (s.velocityCommandsVW vx wz).radius = 1 ∧
    (s.velocityCommandsVW vx wz).speed =
      (if |1000 * s.bias * wz / 2| < 50
        then (if 0 < 1000 * s.bias * wz / 2 then (50 : ℚ) else -50)
        else 1000 * s.bias * wz / 2) := by
  have hwz' : ¬(|wz| < 1/10000) := not_lt.mpr hwz
  have hbr' : |deadzone vx| < 1/10000 ∨ |deadzone vx * 1000 / wz| ≤ 1 := by
    rcases hbr with h | h
    · exact Or.inl h
    · exact Or.inr (by rw [mul_comm (deadzone vx) 1000]; exact h)
  rw [DiffDrive.velocityCommandsVW]
  dsimp only
  rw [if_neg hwz', if_pos hbr']
  exact ⟨rfl, rfl⟩

/-- Witness for C4 at the spec example vx = 0, wz = 0.05 with bias 0.485:
the raw pivot speed 12.125 is below 50 and is clamped to +50; radius is 1.
The dead-zone interaction example vx = 0.05, wz = 1.0 also lands in the
pivot branch, with unclamped speed 242.5. -/
theorem pivot_branch_witness :
    ((DiffDrive.init.velocityCommandsVW 0 (5/100)).radius = 1 ∧
      (DiffDrive.init.velocityCommandsVW 0 (5/100)).speed = 50) ∧
    ((DiffDrive.init.velocityCommandsVW (5/100) 1).radius = 1 ∧
      (DiffDrive.init.velocityCommandsVW (5/100) 1).speed = 485/2) := by
  have hdz0 : deadzone 0 = 0 := by rw [deadzone, if_pos]; norm_num
  have hdz5 : deadzone (5/100) = 0 := by
    rw [deadzone, if_pos]
    rw [abs_of_pos] <;> norm_num
  have hb : DiffDrive.init.bias = 485/1000 := rfl
  have h1 := pivot_branch DiffDrive.init 0 (5/100)
    (by rw [abs_of_pos] <;> norm_num) (Or.inl (by rw [hdz0]; norm_num))
  have h2 := pivot_branch DiffDrive.init (5/100) 1
    (by norm_num) (Or.inl (by rw [hdz5]; norm_num))
  have hv1 : (1000 : ℚ) * (485/1000) * (5/100) / 2 = 485/40 := by norm_num
  have hv2 : (1000 : ℚ) * (485/1000) * 1 / 2 = 485/2 := by norm_num
  have habs1 : |(485 : ℚ)/40| < 50 := by
    rw [abs_of_pos (show (0 : ℚ) < 485/40 by norm_num)]
    norm_num
  have habs2 : ¬(|(485 : ℚ)/2| < 50) := by
    rw [abs_of_pos (show (0 : ℚ) < 485/2 by norm_num)]
    norm_num
  constructor
  · refine ⟨h1.1, h1.2.trans ?_⟩
    rw [hb, hv1, if_pos habs1, if_pos (show (0 : ℚ) < 485/40 by norm_num)]
  · refine ⟨h2.1, h2.2.trans ?_⟩
    rw [hb, hv2, if_neg habs2]

/-- C6: whenever |wz| ≥ 1e-4 and, after the dead-zone rewrite, |vx| ≥ 1e-4
and |1000·vx/wz| > 1, the translator takes the general-turn branch:
radius becomes 1000·vx/wz and speed becomes
(radius + sign(radius)·1000·bias/2)·wz. -/
theorem general_turn_branch (s : DiffDrive) (vx wz : ℚ)
    (hwz : 1/10000 ≤ |wz|)
    (hvx : 1/10000 ≤ |deadzone vx|)
    (hrad : 1 < |1000 * deadzone vx / wz|) :
    (s.velocityCommandsVW vx wz).radius = 1000 * deadzone vx / wz ∧
    (s.velocityCommandsVW vx wz).speed =
      (1000 * deadzone vx / wz
        + (if 0 < 1000 * deadzone vx / wz then (1 : ℚ) else -1) * (1000 * s.bias / 2))
        * wz := by
  have hwz' : ¬(|wz| < 1/10000) := not_lt.mpr hwz
  have hcomm : deadzone vx * 1000 / wz = 1000 * deadzone vx / wz := by
    rw [mul_comm]
  have hbr' : ¬(|deadzone vx| < 1/10000 ∨ |deadzone vx * 1000 / wz| ≤ 1) := by
    push_neg
    exact ⟨hvx, by rw [hcomm]; exact hrad⟩
  rw [DiffDrive.velocityCommandsVW]
  dsimp only
  rw [if_neg hwz', if_neg hbr']
  refine ⟨hcomm, ?_⟩
  show (if 0 < deadzone vx * 1000 / wz then (deadzone vx * 1000 / wz + 1000 * s.bias / 2) * wz
    else (deadzone vx * 1000 / wz - 1000 * s.bias / 2) * wz) = _
  rw [hcomm]
  split
  · ring
  · ring

/-- Witness for C6 at the spec example vx = 0.5, wz = 0.3 with bias 0.485:
radius = 5000/3 (1666.67 mm to two decimals) and speed = exactly 572.75. -/
theorem general_turn_branch_witness :
    (DiffDrive.init.velocityCommandsVW (1/2) (3/10)).radius = 5000/3 ∧
    (DiffDrive.init.velocityCommandsVW (1/2) (3/10)).speed = 2291/4 ∧
    (2291 : ℚ)/4 = 57275/100 := by
  have hdz : deadzone (1/2) = 1/2 := by
    rw [deadzone, if_neg]
    rw [abs_of_pos] <;> norm_num
  have hb : DiffDrive.init.bias = 485/1000 := rfl
  have h := general_turn_branch DiffDrive.init (1/2) (3/10)
    (by rw [abs_of_pos] <;> norm_num)
    (by rw [hdz, abs_of_pos] <;> norm_num)
    (by rw [hdz, abs_of_pos] <;> norm_num)
  refine ⟨h.1.trans (by rw [hdz]; norm_num), h.2.trans ?_, by norm_num⟩
  rw [hdz, hb, if_pos (by norm_num)]
  norm_num

/-- C7: bound saturates to the 16-bit signed range and then truncates toward
zero, and the firmware-command accessor applies bound to both the stored
speed and the stored radius. -/
theorem bound_saturates (v : ℚ) (s : DiffDrive) :
    (32767 < v → bound v = 32767) ∧
    (v < -32768 → bound v = -32768) ∧
    (-32768 ≤ v → v ≤ 32767 → bound v = truncToInt v) ∧
    s.velocityCommandsGet = (bound s.speed, bound s.radius) := by
  refine ⟨fun h => ?_, fun h => ?_, fun h1 h2 => ?_, rfl⟩
  · rw [bound, if_pos h]
  · rw [bound, if_neg (not_lt.mpr (h.le.trans (by norm_num))), if_pos h]
  · rw [bound, if_neg (not_lt.mpr h2), if_neg (not_lt.mpr h1)]

/-- Witness for C7: bound(40000) = 32767, bound(-40000) = -32768, and
in-range values such as 1234.9 and -1234.9 truncate toward zero. -/
theorem bound_saturates_witness :
    bound 40000 = 32767 ∧ bound (-40000) = -32768 ∧
    bound (12349/10) = 1234 ∧ bound (-12349/10) = -1234 := by
  refine ⟨(bound_saturates 40000 DiffDrive.init).1 (by norm_num),
    (bound_saturates (-40000) DiffDrive.init).2.1 (by norm_num),
    ((bound_saturates (12349/10) DiffDrive.init).2.2.1 (by norm_num) (by norm_num)).trans ?_,
    ((bound_saturates (-12349/10) DiffDrive.init).2.2.1 (by norm_num) (by norm_num)).trans ?_⟩
  · rw [truncToInt, if_pos (by norm_num), Int.floor_eq_iff] ; norm_num
  · rw [truncToInt, if_neg (by norm_num), Int.ceil_eq_iff] ; norm_num

/-- In-range integers pass through bound unchanged. -/
theorem bound_intCast_of_range (c : ℤ) (h1 : -32768 ≤ c) (h2 : c ≤ 32767) :
    bound ((c : ℤ) : ℚ) = c := by
  have hc2 : ¬((32767 : ℚ) < (c : ℚ)) := by
    rw [not_lt]
    exact_mod_cast h2
  have hc1 : ¬((c : ℚ) < -32768) := by
    rw [not_lt]
    exact_mod_cast h1
  rw [bound, if_neg hc2, if_neg hc1, truncToInt]
  split
  · exact Int.floor_intCast c
  · exact Int.ceil_intCast c

/-- C10: storing a pair of 16-bit signed integers through the raw
passthrough setter and reading the bounded firmware command returns exactly
the stored pair: bound acts as the identity on in-range integers. -/
theorem passthrough_roundtrip (s : DiffDrive) (cmd_speed cmd_radius : ℤ)
    (hs1 : -32768 ≤ cmd_speed) (hs2 : cmd_speed ≤ 32767)
    (hr1 : -32768 ≤ cmd_radius) (hr2 : cmd_radius ≤ 32767) :
    (s.velocityCommandsRaw cmd_speed cmd_radius).velocityCommandsGet
      = (cmd_speed, cmd_radius) := by
  rw [DiffDrive.velocityCommandsGet, DiffDrive.velocityCommandsRaw]
  rw [show ({ s with
        speed := (cmd_speed : ℚ)
        radius := (cmd_radius : ℚ) } : DiffDrive).speed = (cmd_speed : ℚ) from rfl]
  rw [show ({ s with
        speed := (cmd_speed : ℚ)
        radius := (cmd_radius : ℚ) } : DiffDrive).radius = (cmd_radius : ℚ) from rfl]
  rw [bound_intCast_of_range cmd_speed hs1 hs2,
    bound_intCast_of_range cmd_radius hr1 hr2]

/-- Witness for C10 at the concrete pair (-5, 100): the passthrough
round-trips unchanged. -/
theorem passthrough_roundtrip_witness :
    (DiffDrive.init.velocityCommandsRaw (-5) 100).velocityCommandsGet = (-5, 100) :=
  passthrough_roundtrip DiffDrive.init (-5) 100
    (by norm_num) (by norm_num) (by norm_num) (by norm_num)

end Kobuki
